import Mathlib

/-!
Verification of the React front end of the codebase-documentation app.

The definitions below are a shallow embedding of the JavaScript source in
`frontend/docapp/src`: strings are `String`/`List Char`, JS numbers that only
ever hold integers are `Int`/`Nat`, absent/null values are `Option`, and the
regular expressions that appear literally in the source are embedded as
explicit scanning functions with the same first-match, greedy semantics.
-/

/-! ## JavaScript string primitives -/

/-- Whitespace as recognised by the JS `trim`/`parseInt` (space, tab, newline,
carriage return, vertical tab, form feed). -/
def isWS (c : Char) : Bool :=
  c == ' ' || c == '\t' || c == '\n' || c == '\r' || c == '\x0b' || c == '\x0c'

/-- Embedding of `String.prototype.trim`: drop whitespace from both ends. -/
def trimJS (s : String) : String :=
  String.mk ((((s.data.dropWhile isWS).reverse).dropWhile isWS).reverse)

/-- Does `lit` occur at the head of `l`?  Used to embed matching a literal
piece of a regular expression at one start position. -/
def litMatch : List Char → List Char → Bool
  | [], _ => true
  | _ :: _, [] => false
  | a :: as, b :: bs => a == b && litMatch as bs

/-! ## Date formatting and the generated download filename

Embedding of `api.js` line 90:

  `${filenamePrefix}_${new Date().toISOString().replace(/[-:.]/g, '').substring(0, 14)}.md`
-/

/-- A calendar instant as JS `Date` exposes it through `toISOString`
(UTC components; `year` is assumed to be in 0..9999, the range in which
`toISOString` uses the 4-digit year form). -/
structure JSDate where
  year : Nat
  month : Nat
  day : Nat
  hour : Nat
  minute : Nat
  second : Nat
  millis : Nat
deriving DecidableEq

/-- The decimal digit character for `n` (meaningful for `n < 10`). -/
def digitChar (n : Nat) : Char := Char.ofNat (48 + n)

/-- Two-digit zero-padded decimal rendering, as `toISOString` uses for
month, day, hour, minute and second. -/
def pad2 (n : Nat) : List Char := (digitChar (n / 10 % 10)) :: (digitChar (n % 10)) :: []

/-- Three-digit zero-padded decimal rendering for the milliseconds field. -/
def pad3 (n : Nat) : List Char :=
  (digitChar (n / 100 % 10)) :: (digitChar (n / 10 % 10)) :: (digitChar (n % 10)) :: []

/-- Four-digit zero-padded decimal rendering for the year field. -/
def pad4 (n : Nat) : List Char :=
  (digitChar (n / 1000 % 10)) :: (digitChar (n / 100 % 10)) ::
    (digitChar (n / 10 % 10)) :: (digitChar (n % 10)) :: []

/-- Character list of `Date.prototype.toISOString`:
`YYYY-MM-DDTHH:mm:ss.sssZ`. -/
def toISOStringData (d : JSDate) : List Char :=
  pad4 d.year ++ '-' :: pad2 d.month ++ '-' :: pad2 d.day ++
    'T' :: pad2 d.hour ++ ':' :: pad2 d.minute ++ ':' :: pad2 d.second ++
    '.' :: pad3 d.millis ++ ('Z' :: [])

/-- Characters kept by `.replace(/[-:.]/g, '')`: everything except the three
separators in the character class. -/
def keepChar (c : Char) : Bool := !(c == '-' || c == ':' || c == '.')

/-- The 14-character timestamp slice of the generated filename:
`toISOString().replace(/[-:.]/g, '').substring(0, 14)`. -/
def timestamp14 (d : JSDate) : List Char :=
  ((toISOStringData d).filter keepChar).take 14

/-- The locally generated download filename of
`downloadDocumentationUniversal` (`api.js` line 90):
prefix, underscore, 14-character timestamp slice, `.md`. -/
def generatedFilename (filenamePre : String) (d : JSDate) : String :=
  String.mk (filenamePre.data ++ '_' :: timestamp14 d ++ ('.' :: 'm' :: 'd' :: []))

/-! ## The Content-Disposition filename regular expression

Embedding of `api.js` lines 92-97: `contentDisposition.match(/filename="(.+)"/)`,
first match wins, `(.+)` is greedy (it extends to the last closing quote on
the line) and `.` does not match a newline.
-/

/-- The double-quote character. -/
def quoteChar : Char := Char.ofNat 34

/-- The literal part `filename="` of the regular expression. -/
def fnLit : List Char := 'f' :: 'i' :: 'l' :: 'e' :: 'n' :: 'a' :: 'm' :: 'e' :: '=' :: quoteChar :: []

/-- Index of the last double quote in a list, if any. -/
def lastQuotePos : List Char → Option Nat
  | [] => none
  | c :: cs =>
    match lastQuotePos cs with
    | some i => some (i + 1)
    | none => if c == quoteChar then some 0 else none

/-- Greedy match of `(.+)"` at the start of `l`: the capture is the longest
nonempty newline-free run whose next character is a double quote, hence it
ends just before the last quote of the newline-free run. -/
def capQuote (l : List Char) : Option (List Char) :=
  let run := l.takeWhile (fun c => !(c == '\n'))
  match lastQuotePos run with
  | some i => if 1 ≤ i then some (run.take i) else none
  | none => none

/-- Scan for the first position where `filename="(.+)"` matches, returning
the capture group. -/
def cdFind : List Char → Option (List Char)
  | [] => none
  | c :: cs =>
    if litMatch fnLit (c :: cs) then
      match capQuote ((c :: cs).drop fnLit.length) with
      | some r => some r
      | none => cdFind cs
    else cdFind cs

/-- Embedding of `contentDisposition.match(/filename="(.+)"/)`, returning the
captured filename of the first match. -/
def cdMatch (s : String) : Option String := (cdFind s.data).map String.mk

/-- Filename actually used for the saved file by
`downloadDocumentationUniversal` (`api.js` lines 88-97): the server-provided
`Content-Disposition` filename when the header is present and matches
`filename="(.+)"`, otherwise the locally generated name. -/
def chooseFilename (contentDisposition : Option String) (filenamePre : String) (d : JSDate) : String :=
  let generated := generatedFilename filenamePre d
  match contentDisposition with
  | none => generated
  | some cd =>
    match cdMatch cd with
    | some name => name
    | none => generated

/-! ## The GitHub owner/repo regular expression

Embedding of `/github\.com\/([^/]+)\/([^/]+)/` (`api.js` line 157,
`App.jsx` line 95, and without captures `GitHubInput.jsx` line 18).
-/

/-- Characters matched by `[^/]`. -/
def notSlash (c : Char) : Bool := !(c == '/')

/-- The literal part `github.com/` of the regular expression. -/
def ghLit : List Char :=
  'g' :: 'i' :: 't' :: 'h' :: 'u' :: 'b' :: '.' :: 'c' :: 'o' :: 'm' :: '/' :: []

/-- Match `([^/]+)\/([^/]+)` at the start of `l`: a nonempty greedy run of
non-slash characters, a slash, then a second nonempty greedy run. -/
def matchOwnerRepo (l : List Char) : Option (List Char × List Char) :=
  let owner := l.takeWhile notSlash
  if owner = [] then none
  else
    match l.dropWhile notSlash with
    | '/' :: rest =>
      let repo := rest.takeWhile notSlash
      if repo = [] then none else some (owner, repo)
    | _ => none

/-- Scan for the first position where `github\.com\/([^/]+)\/([^/]+)`
matches, returning the two capture groups. -/
def scanGitHub : List Char → Option (List Char × List Char)
  | [] => none
  | c :: cs =>
    if litMatch ghLit (c :: cs) then
      match matchOwnerRepo ((c :: cs).drop ghLit.length) with
      | some r => some r
      | none => scanGitHub cs
    else scanGitHub cs

/-- Embedding of `url.match(/github\.com\/([^/]+)\/([^/]+)/)`: the owner and
repo capture groups of the first match, if any. -/
def repoMatch (s : String) : Option (String × String) :=
  (scanGitHub s.data).map (fun p => (String.mk p.1, String.mk p.2))

/-! ## JavaScript parseInt

Embedding of `parseInt(e.target.value)` (`GitHubInput.jsx` line 55): skip
leading whitespace, read an optional sign, then read a maximal run of
decimal digits, or of hexadecimal digits after a `0x`/`0X` marker; the
result is `none` (NaN) when no digit is consumed.
-/

/-- Hexadecimal digit characters. -/
def isHexDigitJS (c : Char) : Bool :=
  c.isDigit || ('a' ≤ c && c ≤ 'f') || ('A' ≤ c && c ≤ 'F')

/-- Numeric value of a hexadecimal digit character. -/
def hexVal (c : Char) : Nat :=
  if c.isDigit then c.toNat - 48
  else if 'a' ≤ c && c ≤ 'f' then c.toNat - 87
  else c.toNat - 55

/-- Maximal leading digit run interpreted in the given base; `none` when the
run is empty. -/
def parseDigitRun (isD : Char → Bool) (val : Char → Nat) (base : Nat) (l : List Char) : Option Nat :=
  let ds := l.takeWhile isD
  if ds = [] then none else some (ds.foldl (fun acc c => acc * base + val c) 0)

/-- Magnitude part of `parseInt` after whitespace and sign: hexadecimal after
a `0x`/`0X` marker, decimal otherwise. -/
def parseUnsigned (l : List Char) : Option Nat :=
  match l with
  | '0' :: 'x' :: rest => parseDigitRun isHexDigitJS hexVal 16 rest
  | '0' :: 'X' :: rest => parseDigitRun isHexDigitJS hexVal 16 rest
  | _ => parseDigitRun Char.isDigit (fun c => c.toNat - 48) 10 l

/-- Embedding of JS `parseInt` on a string (default radix); `none` is NaN. -/
def parseIntJS (s : String) : Option Int :=
  match s.data.dropWhile isWS with
  | '-' :: rest => (parseUnsigned rest).map (fun n => -(n : Int))
  | '+' :: rest => (parseUnsigned rest).map (fun n => (n : Int))
  | l => (parseUnsigned l).map (fun n => (n : Int))

/-! ## GitHubInput component (`GitHubInput.jsx`) -/

/-- Initial value of the `maxFiles` state (`useState(10)`). -/
def maxFilesInit : Int := 10

/-- Embedding of `handleMaxFilesChange` (`GitHubInput.jsx` lines 54-59): the
state is updated only when the parsed value is a number between 1 and 50. -/
def handleMaxFilesChange (current : Int) (input : String) : Int :=
  match parseIntJS input with
  | none => current
  | some v => if 1 ≤ v ∧ v ≤ 50 then v else current

/-- The `maxFiles` state after a sequence of change events on the max-files
input, starting from the initial value 10. -/
def maxFilesAfter (events : List String) : Int :=
  events.foldl handleMaxFilesChange maxFilesInit

/-- Outcome of submitting the GitHub form (`GitHubInput.jsx` lines 9-35):
either an early return behind a validation alert, or a call of
`onSubmit(githubUrl.trim(), maxFiles)`. -/
inductive GHSubmitAction where
  | rejectEmpty
  | rejectInvalid
  | submit (url : String) (maxFiles : Int)
deriving DecidableEq

/-- Embedding of `handleSubmit` of `GitHubInput.jsx`: reject a blank URL,
then reject a URL with no `github.com/<owner>/<repo>` match, otherwise
forward the trimmed URL and the current `maxFiles` to `onSubmit`. -/
def handleSubmitGH (githubUrl : String) (maxFiles : Int) : GHSubmitAction :=
  if trimJS githubUrl = "" then .rejectEmpty
  else if repoMatch githubUrl = none then .rejectInvalid
  else .submit (trimJS githubUrl) maxFiles

/-- Does the submit outcome reach `onSubmit` (and hence the network)? -/
def submitsGH : GHSubmitAction → Bool
  | .submit _ _ => true
  | _ => false

/-! ## CodeInput component (`CodeInput.jsx`) -/

/-- Outcome of submitting the paste-code form. -/
inductive CodeSubmitAction where
  | noop
  | submit (code : String)
deriving DecidableEq

/-- Embedding of `handleSubmit` of `CodeInput.jsx` (lines 7-17) acting on the
component state `(code, isProcessing)`: a blank code text returns before any
state change or `onSubmit` call; otherwise `isProcessing` is set and the code
is forwarded. -/
def codeInputStep (code : String) (isProcessing : Bool) : (String × Bool) × CodeSubmitAction :=
  if trimJS code = "" then ((code, isProcessing), .noop)
  else ((code, true), .submit code)

/-- Embedding of the submit-button `disabled` attribute of `CodeInput.jsx`
(line 33): `isProcessing || !code.trim()`. -/
def codeSubmitDisabled (isProcessing : Bool) (code : String) : Bool :=
  isProcessing || (trimJS code == "")

/-! ## App component state (`App.jsx`) -/

/-- The active tab. -/
inductive Tab where
  | code
  | file
  | github
deriving DecidableEq

/-- What `currentCode` holds: pasted code text or an uploaded file (with its
name), mirroring the `string | File | null` uses in `App.jsx`. -/
inductive CodeOrFile where
  | code (text : String)
  | file (name : String)
deriving DecidableEq

/-- The GitHub submission remembered in `currentGitHubData`. -/
structure GHData where
  githubUrl : String
  maxFiles : Int
deriving DecidableEq

/-- The `useState` cells of the `App` component. -/
structure AppState where
  documentation : String
  activeTab : Tab
  error : String
  currentCode : Option CodeOrFile
  currentGitHubData : Option GHData
deriving DecidableEq

/-- Embedding of `handleTabChange` (`App.jsx` lines 118-125). -/
def handleTabChange (s : AppState) (tab : Tab) : AppState :=
  { s with error := "", documentation := "", currentCode := none,
           currentGitHubData := none, activeTab := tab }

/-- The error banner (`App.jsx` line 165): rendered only when the `error`
state is nonempty. -/
def errorBanner (s : AppState) : Option String :=
  if s.error = "" then none else some s.error

/-! ## Fetch responses and the error message of `api.js` -/

/-- The JSON fields of a backend response body that the front end reads. A
missing `markdown` field is modelled as the empty string (it renders as an
empty document); `detail` keeps its presence explicit because
`errorData?.detail` distinguishes it. -/
structure JsonBody where
  detail : Option String := none
  markdown : String := ""
deriving DecidableEq

/-- An HTTP response as the `fetch` handlers in `api.js` observe it: `body`
is the result of `response.json()`, `none` when the body is not JSON. -/
structure FetchResponse where
  ok : Bool
  status : Nat
  statusText : String
  body : Option JsonBody
deriving DecidableEq

/-- The fallback error text of `api.js`: backtick template
`Server error: [status] [statusText]`. -/
def serverErrorFallback (r : FetchResponse) : String :=
  "Server error: " ++ Nat.repr r.status ++ " " ++ r.statusText

/-- Embedding of the error construction shared by every `api.js` handler
(for example lines 19-23): `errorData?.detail || fallback` — the `detail`
field when the body parsed as JSON and `detail` is a nonempty string,
otherwise the fallback. -/
def fetchErrorMessage (r : FetchResponse) : String :=
  match r.body with
  | some b =>
    match b.detail with
    | some d => if d = "" then serverErrorFallback r else d
    | none => serverErrorFallback r
  | none => serverErrorFallback r

/-- Request body of `POST /docs/gen` (`api.js` lines 13-16). -/
structure DocGenRequest where
  code : String
  isBase64 : Bool
deriving DecidableEq

/-- Placeholder for the engine-supplied message of a JSON parse failure on an
OK response; no claim depends on its text. -/
def jsonSyntaxErrorMessage : String := "SyntaxError: unexpected token"

/-- Embedding of `generateDocumentation` (`api.js` lines 6-31): the list of
requests the call issues (always exactly the one `fetch`) paired with its
outcome for the given response. -/
def generateDocumentationModel (code : String) (resp : FetchResponse) :
    List DocGenRequest × Except String JsonBody :=
  (({ code := code, isBase64 := false } : DocGenRequest) :: [],
   if resp.ok then
     match resp.body with
     | some b => Except.ok b
     | none => Except.error jsonSyntaxErrorMessage
   else Except.error (fetchErrorMessage resp))

/-- Embedding of `handleCodeSubmit` (`App.jsx` lines 27-42) for a given
response: the resulting `App` state and the requests issued. On success the
markdown is stored and displayed; on failure the error state is set to
`err.message` (or the literal fallback text when that message is empty). -/
def handleCodeSubmitModel (s : AppState) (code : String) (resp : FetchResponse) :
    AppState × List DocGenRequest :=
  match generateDocumentationModel code resp with
  | (reqs, Except.ok b) =>
    ({ s with error := "", documentation := b.markdown,
              currentCode := some (.code code) }, reqs)
  | (reqs, Except.error msg) =>
    ({ s with error := if msg = "" then "Failed to generate documentation. Please try again." else msg }, reqs)

/-! ## GitHub generation request (`api.js` lines 120-145, `App.jsx` 61-77) -/

/-- Request body of `POST /docs/from-github` (`api.js` lines 127-130). -/
structure GHRequest where
  github_url : String
  max_files : Int
deriving DecidableEq

/-- Body built by `generateGitHubDocumentation`: exactly the URL and limit it
was called with. -/
def generateGitHubRequest (githubUrl : String) (maxFiles : Int) : GHRequest :=
  { github_url := githubUrl, max_files := maxFiles }

/-- The request that submitting the GitHub form sends, if any: the form
validates, then `handleGitHubSubmit` passes its arguments unchanged to
`generateGitHubDocumentation`. -/
def githubSubmitRequest (githubUrl : String) (maxFiles : Int) : Option GHRequest :=
  match handleSubmitGH githubUrl maxFiles with
  | .submit url m => some (generateGitHubRequest url m)
  | _ => none

/-- Embedding of the success path of `handleGitHubSubmit` (`App.jsx` lines
61-70): store and display `response.markdown`, remember the GitHub data,
clear the code data. -/
def handleGitHubSubmitOk (s : AppState) (githubUrl : String) (maxFiles : Int)
    (resp : JsonBody) : AppState :=
  { s with error := "", documentation := resp.markdown,
           currentGitHubData := some { githubUrl := githubUrl, maxFiles := maxFiles },
           currentCode := none }

/-! ## Download handler of the App component (`App.jsx` lines 79-116) -/

/-- Request body of `POST /docs/download` (`api.js` lines 70-74). -/
structure DownloadRequest where
  markdown_content : String
  filename_pre : String
  source_type : String
deriving DecidableEq

/-- Embedding of `currentCode.name.replace(/\.[^/.]+$/, '')` (`App.jsx` line
100): drop a final dot-extension (a dot followed by at least one character
that is neither a dot nor a slash, at the end of the name). -/
def stripExtension (l : List Char) : List Char :=
  let r := l.reverse
  let seg := r.takeWhile (fun c => !(c == '.' || c == '/'))
  match seg, r.drop seg.length with
  | _ :: _, '.' :: rest => rest.reverse
  | _, _ => l

/-- Source type and filename stem chosen by `handleDownload` (`App.jsx`
lines 89-104) from the current state. -/
def downloadNaming (s : AppState) : String × String :=
  match s.currentGitHubData with
  | some g =>
    let repoName :=
      match repoMatch g.githubUrl with
      | some (o, r) => o ++ "_" ++ r
      | none => "github_repo"
    ("github", "github_docs_" ++ repoName)
  | none =>
    match s.currentCode with
    | some (.file name) => ("file", "file_docs_" ++ String.mk (stripExtension name.data))
    | some (.code _) => ("code", "code_documentation")
    | none => ("code", "documentation")

/-- Embedding of `handleDownload` (`App.jsx` lines 79-116): with blank
documentation it raises the fixed error and issues no request; otherwise it
clears the error and posts the stored documentation with the computed
naming. -/
def handleDownload (s : AppState) : AppState × Option DownloadRequest :=
  if trimJS s.documentation = "" then
    ({ s with error := "No documentation to download. Please generate documentation first." }, none)
  else
    let naming := downloadNaming s
    ({ s with error := "" },
     some { markdown_content := s.documentation, filename_pre := naming.2,
            source_type := naming.1 })

/-- Pattern of claim C1, stated from its words: the filename is the prefix,
an underscore, exactly 14 decimal digits, and the extension `.md`. -/
def hasTimestampPattern (pre fname : String) : Bool :=
  let stem := pre.data ++ ('_' :: [])
  litMatch stem fname.data &&
    (let rest := fname.data.drop stem.length
     rest.length == 17 && (rest.take 14).all Char.isDigit &&
       rest.drop 14 == ('.' :: 'm' :: 'd' :: []))

/-- A concrete app state whose stored documentation is whitespace-only. -/
def blankDocState : AppState :=
  { documentation := ("  "), activeTab := Tab.code, error := "",
    currentCode := none, currentGitHubData := none }

/-! ## Shared helper lemmas -/

lemma takeWhile_all (p : Char → Bool) (l : List Char) (h : ∀ c ∈ l, p c = true) :
    l.takeWhile p = l := by
  induction l with
  | nil => rfl
  | cons c cs ih =>
    simp [List.takeWhile_cons, h c (by simp), ih (fun x hx => h x (by simp [hx]))]

lemma takeWhile_boundary (p : Char → Bool) (l₁ l₂ : List Char) (c₀ : Char)
    (h₁ : ∀ c ∈ l₁, p c = true) (h₂ : p c₀ = false) :
    (l₁ ++ c₀ :: l₂).takeWhile p = l₁ ∧ (l₁ ++ c₀ :: l₂).dropWhile p = c₀ :: l₂ := by
  constructor
  · rw [List.takeWhile_append_of_pos (by intro a ha; exact h₁ a ha)]
    simp [List.takeWhile_cons, h₂]
  · rw [List.dropWhile_append_of_pos (by intro a ha; exact h₁ a ha)]
    simp [List.dropWhile_cons, h₂]

lemma litMatch_append_self (lit l : List Char) : litMatch lit (lit ++ l) = true := by
  induction lit with
  | nil => rfl
  | cons a as ih => simp [litMatch, ih]

/-! ## C3 -/

/-- C3: an input URL with no `github.com/<owner>/<repo>` match (the empty and
whitespace-only strings included) is rejected by the GitHub form with a
validation alert; `onSubmit`, and with it the network call, is never
reached. -/
theorem c3_invalid_url_no_submit (u : String) (n : Int) (h : repoMatch u = none) :
    submitsGH (handleSubmitGH u n) = false ∧
    (handleSubmitGH u n = GHSubmitAction.rejectEmpty ∨
     handleSubmitGH u n = GHSubmitAction.rejectInvalid) := by
  unfold handleSubmitGH
  by_cases he : trimJS u = "" <;> simp [he, h, submitsGH]

/-- Witness for C3 at the concrete input `not-a-url`. -/
theorem c3_witness :
    submitsGH (handleSubmitGH ("not-a-url") 10) = false ∧
    (handleSubmitGH ("not-a-url") 10 = GHSubmitAction.rejectEmpty ∨
     handleSubmitGH ("not-a-url") 10 = GHSubmitAction.rejectInvalid) :=
  c3_invalid_url_no_submit ("not-a-url") 10 (by decide)

/-! ## C4 -/

lemma handleMaxFilesChange_bounds (x : Int) (e : String) (h1 : 1 ≤ x) (h2 : x ≤ 50) :
    1 ≤ handleMaxFilesChange x e ∧ handleMaxFilesChange x e ≤ 50 := by
  unfold handleMaxFilesChange
  cases hp : parseIntJS e with
  | none => exact ⟨h1, h2⟩
  | some v =>
    by_cases hv : 1 ≤ v ∧ v ≤ 50
    · simp [hv]
    · simpa [hv] using ⟨h1, h2⟩

/-- C4: starting from 10, the `maxFiles` state stays between 1 and 50 under
every sequence of change events (so every `max_files` the form sends lies in
that range), and an event whose parsed value is NaN or out of range leaves
the state unchanged. -/
theorem c4_max_files_in_range :
    (∀ events : List String,
       1 ≤ maxFilesAfter events ∧ maxFilesAfter events ≤ 50) ∧
    (∀ (current : Int) (input : String),
       (parseIntJS input = none ∨
        ∃ v, parseIntJS input = some v ∧ (v < 1 ∨ 50 < v)) →
       handleMaxFilesChange current input = current) := by
  constructor
  · have aux : ∀ (events : List String) (x : Int), 1 ≤ x → x ≤ 50 →
        1 ≤ List.foldl handleMaxFilesChange x events ∧
          List.foldl handleMaxFilesChange x events ≤ 50 := by
      intro events
      induction events with
      | nil => intro x h1 h2; exact ⟨h1, h2⟩
      | cons e es ih =>
        intro x h1 h2
        have hstep := handleMaxFilesChange_bounds x e h1 h2
        exact ih _ hstep.1 hstep.2
    intro events
    unfold maxFilesAfter
    exact aux events maxFilesInit (by decide) (by decide)
  · intro current input h
    unfold handleMaxFilesChange
    rcases h with h | ⟨v, hv, hout⟩
    · rw [h]
    · rw [hv]
      have hnot : ¬ (1 ≤ v ∧ v ≤ 50) := by omega
      simp [hnot]

/-- Witness for C4: a concrete event sequence stays in range, and the
out-of-range event `99` leaves the state at 10. -/
theorem c4_witness :
    (1 ≤ maxFilesAfter (("25") :: ("abc") :: ("100") :: []) ∧
      maxFilesAfter (("25") :: ("abc") :: ("100") :: []) ≤ 50) ∧
    handleMaxFilesChange 10 ("99") = 10 :=
  ⟨c4_max_files_in_range.1 _,
   c4_max_files_in_range.2 10 ("99") (Or.inr ⟨99, by decide, by decide⟩)⟩

/-! ## C8 -/

/-- C8: switching the active tab resets the displayed documentation and error
to empty strings and the stored code/file and GitHub data to null; the
resulting state is fully determined by the chosen tab, so no other state
changes. -/
theorem c8_tab_change_resets (s : AppState) (tab : Tab) :
    handleTabChange s tab =
      { documentation := "", activeTab := tab, error := "",
        currentCode := none, currentGitHubData := none } := rfl

/-! ## C9 -/

/-- C9: invoking the download handler with blank stored documentation raises
the fixed error message, issues no request, and leaves the stored
documentation unchanged. -/
theorem c9_empty_download (s : AppState) (h : trimJS s.documentation = "") :
    (handleDownload s).2 = none ∧
    (handleDownload s).1.error =
      "No documentation to download. Please generate documentation first." ∧
    (handleDownload s).1.documentation = s.documentation := by
  unfold handleDownload
  simp [h]

/-- Witness for C9 at a state whose documentation is whitespace-only. -/
theorem c9_witness :
    (handleDownload blankDocState).2 = none ∧
    (handleDownload blankDocState).1.error =
      "No documentation to download. Please generate documentation first." ∧
    (handleDownload blankDocState).1.documentation = blankDocState.documentation :=
  c9_empty_download blankDocState (by decide)

/-! ## C10 -/

/-- C10: submitting the paste-code form with blank code is a no-op — the
component state is unchanged and `onSubmit` is not called — and the submit
button is disabled in that state. -/
theorem c10_blank_code_noop (code : String) (isProcessing : Bool)
    (h : trimJS code = "") :
    codeInputStep code isProcessing = ((code, isProcessing), CodeSubmitAction.noop) ∧
    codeSubmitDisabled isProcessing code = true := by
  unfold codeInputStep codeSubmitDisabled
  simp [h]

/-- Witness for C10 at whitespace-only code. -/
theorem c10_witness :
    codeInputStep ("   ") false = ((("   "), false), CodeSubmitAction.noop) ∧
    codeSubmitDisabled false ("   ") = true :=
  c10_blank_code_noop ("   ") false (by decide)

/-! ## C5 -/

lemma serverErrorFallback_ne (r : FetchResponse) : serverErrorFallback r ≠ "" := by
  unfold serverErrorFallback
  intro h
  have hlen := congrArg String.length h
  rw [String.length_append, String.length_append, String.length_append] at hlen
  have h14 : ("Server error: " : String).length = 14 := rfl
  have h0 : ("" : String).length = 0 := rfl
  omega

lemma fetchErrorMessage_cases (r : FetchResponse) :
    (∃ b d, r.body = some b ∧ b.detail = some d ∧ d ≠ "" ∧ fetchErrorMessage r = d) ∨
    ((∀ b, r.body = some b → ∀ d, b.detail = some d → d = "") ∧
      fetchErrorMessage r = serverErrorFallback r) := by
  obtain ⟨ok, status, text, body⟩ := r
  cases body with
  | none =>
    right
    refine ⟨?_, rfl⟩
    intro b hb2
    cases hb2
  | some b =>
    obtain ⟨det, md⟩ := b
    cases det with
    | none =>
      right
      refine ⟨?_, rfl⟩
      intro b2 hb2 d hd2
      cases hb2
      simp at hd2
    | some d =>
      by_cases hde : d = ""
      · right
        subst hde
        refine ⟨?_, by simp [fetchErrorMessage]⟩
        intro b2 hb2 d2 hd2
        cases hb2
        exact (Option.some.inj hd2).symm
      · left
        exact ⟨⟨some d, md⟩, d, rfl, rfl, hde, by simp [fetchErrorMessage, hde]⟩

/-- C5: for every non-OK response the front end issues exactly the single
request of the submit and surfaces the error with no retry; the stored error
message equals the JSON `detail` field when it is present and nonempty, and
otherwise the fallback `Server error: [status] [statusText]`. -/
theorem c5_error_message (s : AppState) (code : String) (resp : FetchResponse)
    (hok : resp.ok = false) :
    (handleCodeSubmitModel s code resp).2 =
      ({ code := code, isBase64 := false } : DocGenRequest) :: [] ∧
    ((∃ b d, resp.body = some b ∧ b.detail = some d ∧ d ≠ "" ∧
        (handleCodeSubmitModel s code resp).1.error = d) ∨
     ((∀ b, resp.body = some b → ∀ d, b.detail = some d → d = "") ∧
        (handleCodeSubmitModel s code resp).1.error =
          "Server error: " ++ Nat.repr resp.status ++ " " ++ resp.statusText)) := by
  have hmodel : generateDocumentationModel code resp =
      (({ code := code, isBase64 := false } : DocGenRequest) :: [],
       Except.error (fetchErrorMessage resp)) := by
    unfold generateDocumentationModel
    rw [hok]
    simp
  have herr : (handleCodeSubmitModel s code resp).1.error =
      if fetchErrorMessage resp = ""
      then "Failed to generate documentation. Please try again."
      else fetchErrorMessage resp := by
    unfold handleCodeSubmitModel
    rw [hmodel]
  have hreq : (handleCodeSubmitModel s code resp).2 =
      ({ code := code, isBase64 := false } : DocGenRequest) :: [] := by
    unfold handleCodeSubmitModel
    rw [hmodel]
  refine ⟨hreq, ?_⟩
  rcases fetchErrorMessage_cases resp with ⟨b, d, hb, hd, hde, hmsg⟩ | ⟨hall, hmsg⟩
  · left
    refine ⟨b, d, hb, hd, hde, ?_⟩
    rw [herr, hmsg]
    simp [hde]
  · right
    refine ⟨hall, ?_⟩
    rw [herr, hmsg]
    simp [serverErrorFallback_ne resp]
    rfl

/-- Witness for C5: a 500 response with a non-JSON body yields the fallback
message, and the one request carries the submitted code. -/
theorem c5_witness :
    (handleCodeSubmitModel blankDocState ("x") (FetchResponse.mk false 500 ("Internal Server Error") none)).2 =
      ({ code := ("x"), isBase64 := false } : DocGenRequest) :: [] ∧
    ((∃ b d, (FetchResponse.mk false 500 ("Internal Server Error") none).body = some b ∧
        b.detail = some d ∧ d ≠ "" ∧
        (handleCodeSubmitModel blankDocState ("x") (FetchResponse.mk false 500 ("Internal Server Error") none)).1.error = d) ∨
     ((∀ b, (FetchResponse.mk false 500 ("Internal Server Error") none).body = some b →
         ∀ d, b.detail = some d → d = "") ∧
        (handleCodeSubmitModel blankDocState ("x") (FetchResponse.mk false 500 ("Internal Server Error") none)).1.error =
          "Server error: " ++ Nat.repr 500 ++ " " ++ ("Internal Server Error"))) :=
  c5_error_message blankDocState ("x") (FetchResponse.mk false 500 ("Internal Server Error") none) rfl

/-! ## C7 -/

/-- C7: a validated GitHub submission with URL `u` and limit `n` sends
exactly the body with `github_url` the trimmed `u` and `max_files` equal to
`n`, and on success the `markdown` field of the response is what the app
stores and displays. -/
theorem c7_github_request (u : String) (n : Int) (s : AppState) (resp : JsonBody)
    (hne : ¬ trimJS u = "") (hm : ¬ repoMatch u = none) :
    githubSubmitRequest u n = some { github_url := trimJS u, max_files := n } ∧
    (handleGitHubSubmitOk s (trimJS u) n resp).documentation = resp.markdown ∧
    (handleGitHubSubmitOk s (trimJS u) n resp).currentGitHubData =
      some { githubUrl := trimJS u, maxFiles := n } := by
  refine ⟨?_, rfl, rfl⟩
  unfold githubSubmitRequest handleSubmitGH
  simp [hne, hm, generateGitHubRequest]

/-- Witness for C7 at a concrete padded URL and a concrete response. -/
theorem c7_witness :
    githubSubmitRequest (" https://github.com/octocat/Hello-World ") 10 =
      some { github_url := trimJS (" https://github.com/octocat/Hello-World "),
             max_files := 10 } ∧
    (handleGitHubSubmitOk blankDocState (trimJS (" https://github.com/octocat/Hello-World ")) 10
        { detail := none, markdown := ("# Docs") }).documentation =
      ({ detail := none, markdown := ("# Docs") } : JsonBody).markdown ∧
    (handleGitHubSubmitOk blankDocState (trimJS (" https://github.com/octocat/Hello-World ")) 10
        { detail := none, markdown := ("# Docs") }).currentGitHubData =
      some { githubUrl := trimJS (" https://github.com/octocat/Hello-World "), maxFiles := 10 } :=
  c7_github_request (" https://github.com/octocat/Hello-World ") 10 blankDocState
    { detail := none, markdown := ("# Docs") } (by decide) (by decide)

/-! ## C1 -/

lemma digitChar_isDigit (n : Nat) (h : n < 10) : (digitChar n).isDigit = true := by
  interval_cases n <;> decide

lemma keep_digit (m : Nat) (h : m < 10) : keepChar (digitChar m) = true := by
  interval_cases m <;> decide

lemma keep_digitChar (n : Nat) : keepChar (digitChar (n % 10)) = true :=
  keep_digit _ (Nat.mod_lt _ (by decide))

lemma keep_dash : keepChar '-' = false := rfl

lemma keep_colon : keepChar ':' = false := rfl

lemma keep_dot : keepChar '.' = false := rfl

lemma keep_T : keepChar 'T' = true := rfl

lemma keep_Z : keepChar 'Z' = true := rfl

lemma timestamp14_split (d : JSDate) :
    timestamp14 d =
      (pad4 d.year ++ pad2 d.month ++ pad2 d.day) ++
        'T' :: (pad2 d.hour ++ pad2 d.minute ++ (digitChar (d.second / 10 % 10) :: [])) := by
  have hfilter : (toISOStringData d).filter keepChar =
      ((pad4 d.year ++ pad2 d.month ++ pad2 d.day) ++
        'T' :: (pad2 d.hour ++ pad2 d.minute ++ (digitChar (d.second / 10 % 10) :: []))) ++
        (digitChar (d.second % 10) :: (pad3 d.millis ++ ('Z' :: []))) := by
    simp [toISOStringData, pad4, pad2, pad3, List.filter_cons, List.filter_append,
          keep_digitChar, keep_dash, keep_colon, keep_dot, keep_T, keep_Z]
  have hlen : ((pad4 d.year ++ pad2 d.month ++ pad2 d.day) ++
      'T' :: (pad2 d.hour ++ pad2 d.minute ++ (digitChar (d.second / 10 % 10) :: []))).length
        = 14 := by
    simp [pad4, pad2]
  unfold timestamp14
  rw [hfilter]
  exact List.take_left' hlen

/-- C1 (amended): when the response carries no Content-Disposition filename,
the generated filename is the prefix, an underscore, eight date digits, the
literal character T, five time digits (hours, minutes and the tens digit of
the seconds), and `.md` — 14 timestamp characters of which only 13 are
digits, not the 14 decimal digits the claim states. -/
theorem c1_generated_filename_shape (p : String) (d : JSDate) :
    ∃ ymd hm5 : List Char,
      ymd.length = 8 ∧ (∀ c ∈ ymd, c.isDigit = true) ∧
      hm5.length = 5 ∧ (∀ c ∈ hm5, c.isDigit = true) ∧
      (chooseFilename none p d).data =
        p.data ++ '_' :: (ymd ++ 'T' :: hm5) ++ ('.' :: 'm' :: 'd' :: []) := by
  refine ⟨pad4 d.year ++ pad2 d.month ++ pad2 d.day,
    pad2 d.hour ++ pad2 d.minute ++ (digitChar (d.second / 10 % 10) :: []),
    by simp [pad4, pad2], ?_, by simp [pad2], ?_, ?_⟩
  · intro c hc
    simp [pad4, pad2] at hc
    rcases hc with h | h | h | h | h | h | h | h <;> subst h <;>
      exact digitChar_isDigit _ (Nat.mod_lt _ (by decide))
  · intro c hc
    simp [pad2] at hc
    rcases hc with h | h | h | h | h <;> subst h <;>
      exact digitChar_isDigit _ (Nat.mod_lt _ (by decide))
  · have hdata : (chooseFilename none p d).data =
        p.data ++ '_' :: timestamp14 d ++ ('.' :: 'm' :: 'd' :: []) := rfl
    rw [hdata, timestamp14_split d]

/-- C1 counterexample: at a concrete date the no-header filename is
`P_20240102T03040.md`; its 14 timestamp characters contain the letter T, so
the name does not match prefix, underscore, 14 decimal digits, `.md`. -/
theorem c1_counterexample :
    chooseFilename none ("P") (JSDate.mk 2024 1 2 3 4 5 6) = "P_20240102T03040.md" ∧
    hasTimestampPattern ("P") (chooseFilename none ("P") (JSDate.mk 2024 1 2 3 4 5 6)) = false := by
  constructor
  · decide
  · decide

/-! ## C2 -/

lemma matchOwnerRepo_of (o rest repo : List Char) (ho : o ≠ [])
    (ho2 : ∀ c ∈ o, notSlash c = true)
    (hrest : rest.takeWhile notSlash = repo) (hrepo : repo ≠ []) :
    matchOwnerRepo (o ++ '/' :: rest) = some (o, repo) := by
  have hb := takeWhile_boundary notSlash o rest '/' ho2 (by decide)
  simp [matchOwnerRepo, hb.1, hb.2, ho, hrest, hrepo]

lemma scanGitHub_step_ne (c : Char) (cs : List Char) (h : ('g' == c) = false) :
    scanGitHub (c :: cs) = scanGitHub cs := by
  have hlit : litMatch ghLit (c :: cs) = false := by
    simp [ghLit, litMatch, h]
  simp [scanGitHub, hlit]

lemma scanGitHub_found (c : Char) (cs : List Char) (o r : List Char)
    (hlit : litMatch ghLit (c :: cs) = true)
    (hm : matchOwnerRepo ((c :: cs).drop ghLit.length) = some (o, r)) :
    scanGitHub (c :: cs) = some (o, r) := by
  simp [scanGitHub, hlit, hm]

lemma scanGitHub_https (l o r : List Char) (hm : matchOwnerRepo l = some (o, r)) :
    scanGitHub (("https://github.com/").data ++ l) = some (o, r) := by
  show scanGitHub
      ('h' :: 't' :: 't' :: 'p' :: 's' :: ':' :: '/' :: '/' :: (ghLit ++ l)) = some (o, r)
  rw [scanGitHub_step_ne 'h' _ rfl, scanGitHub_step_ne 't' _ rfl, scanGitHub_step_ne 't' _ rfl,
      scanGitHub_step_ne 'p' _ rfl, scanGitHub_step_ne 's' _ rfl, scanGitHub_step_ne ':' _ rfl,
      scanGitHub_step_ne '/' _ rfl, scanGitHub_step_ne '/' _ rfl]
  exact scanGitHub_found 'g'
    ('i' :: 't' :: 'h' :: 'u' :: 'b' :: '.' :: 'c' :: 'o' :: 'm' :: '/' :: l) o r
    (litMatch_append_self ghLit l) hm

/-- C2 (amended): for a URL `https://github.com/` owner `/` repo (owner and
repo nonempty and slash-free), the extraction returns exactly owner and
repo, both when the URL ends there and when a further `/` and any trailing
path or query follow — trailing path segments after a slash are ignored.
(The counterexample shows that a query string glued directly to the repo
segment, with no intervening slash, is not ignored.) -/
theorem c2_owner_repo_extraction (o r t : List Char)
    (ho : o ≠ []) (hr : r ≠ [])
    (ho2 : ∀ c ∈ o, notSlash c = true) (hr2 : ∀ c ∈ r, notSlash c = true) :
    repoMatch (String.mk (("https://github.com/").data ++ (o ++ '/' :: r))) =
      some (String.mk o, String.mk r) ∧
    repoMatch (String.mk (("https://github.com/").data ++ (o ++ '/' :: (r ++ '/' :: t)))) =
      some (String.mk o, String.mk r) := by
  constructor
  · have h1 : matchOwnerRepo (o ++ '/' :: r) = some (o, r) :=
      matchOwnerRepo_of o r r ho ho2 (takeWhile_all _ _ hr2) hr
    show (scanGitHub (("https://github.com/").data ++ (o ++ '/' :: r))).map
        (fun p => (String.mk p.1, String.mk p.2)) = some (String.mk o, String.mk r)
    rw [scanGitHub_https _ _ _ h1]
    rfl
  · have hb := takeWhile_boundary notSlash r t '/' hr2 (by decide)
    have h1 : matchOwnerRepo (o ++ '/' :: (r ++ '/' :: t)) = some (o, r) :=
      matchOwnerRepo_of o (r ++ '/' :: t) r ho ho2 hb.1 hr
    show (scanGitHub (("https://github.com/").data ++ (o ++ '/' :: (r ++ '/' :: t)))).map
        (fun p => (String.mk p.1, String.mk p.2)) = some (String.mk o, String.mk r)
    rw [scanGitHub_https _ _ _ h1]
    rfl

/-- Witness for C2 at the URL `https://github.com/octocat/Hello-World` and
its extension with the trailing path `/tree/main`. -/
theorem c2_witness :
    repoMatch (String.mk (("https://github.com/").data ++
        (("octocat").data ++ '/' :: ("Hello-World").data))) =
      some (String.mk ("octocat").data, String.mk ("Hello-World").data) ∧
    repoMatch (String.mk (("https://github.com/").data ++
        (("octocat").data ++ '/' :: (("Hello-World").data ++ '/' :: ("tree/main").data)))) =
      some (String.mk ("octocat").data, String.mk ("Hello-World").data) :=
  c2_owner_repo_extraction ("octocat").data ("Hello-World").data ("tree/main").data
    (by decide) (by decide) (by decide) (by decide)

/-- C2 counterexample: the URL contains `github.com/octocat/Hello-World`
followed by the query string `?tab=readme`, yet the extracted repo is
`Hello-World?tab=readme`, not `Hello-World` — the query string is not
ignored. -/
theorem c2_counterexample :
    ("https://github.com/octocat/Hello-World?tab=readme" : String) =
      "https://" ++ "github.com/" ++ "octocat" ++ "/" ++ "Hello-World" ++ "?tab=readme" ∧
    repoMatch ("https://github.com/octocat/Hello-World?tab=readme") =
      some (("octocat"), ("Hello-World?tab=readme")) ∧
    (("Hello-World?tab=readme") : String) ≠ "Hello-World" := by
  refine ⟨by decide, by decide, by decide⟩

/-! ## C6 -/

lemma lastQuotePos_append (nm : List Char) :
    lastQuotePos (nm ++ quoteChar :: []) = some nm.length := by
  induction nm with
  | nil => simp [lastQuotePos]
  | cons c cs ih => simp [lastQuotePos, ih]

lemma capQuote_exact (nm : List Char) (hne : nm ≠ [])
    (hnl : ∀ c ∈ nm, (c == '\n') = false) :
    capQuote (nm ++ quoteChar :: []) = some nm := by
  have hrun : (nm ++ quoteChar :: []).takeWhile (fun c => !(c == '\n')) =
      nm ++ quoteChar :: [] := by
    refine takeWhile_all _ _ ?_
    intro c hc
    rcases List.mem_append.mp hc with h | h
    · simp [hnl c h]
    · simp at h
      subst h
      decide
  have hlen : 1 ≤ nm.length := by
    cases nm with
    | nil => exact absurd rfl hne
    | cons a as => simp
  simp only [capQuote]
  rw [hrun, lastQuotePos_append nm]
  show (if 1 ≤ nm.length then some (List.take nm.length (nm ++ quoteChar :: [])) else none) =
    some nm
  rw [if_pos hlen, List.take_left]

lemma cdFind_step_ne (c : Char) (cs : List Char) (h : ('f' == c) = false) :
    cdFind (c :: cs) = cdFind cs := by
  have hlit : litMatch fnLit (c :: cs) = false := by
    simp [fnLit, litMatch, h]
  simp [cdFind, hlit]

lemma cdFind_found (c : Char) (cs : List Char) (r : List Char)
    (hlit : litMatch fnLit (c :: cs) = true)
    (hm : capQuote ((c :: cs).drop fnLit.length) = some r) :
    cdFind (c :: cs) = some r := by
  simp [cdFind, hlit, hm]

/-- C6: when the Content-Disposition header matches `filename="(.+)"`,
`downloadDocumentationUniversal` saves under the captured server-provided
name instead of the locally generated one; in particular a well-formed
header `attachment; filename="name"` (name nonempty and newline-free)
yields exactly that name. -/
theorem c6_server_filename :
    (∀ (cd filenamePre : String) (d : JSDate) (name : String),
       cdMatch cd = some name → chooseFilename (some cd) filenamePre d = name) ∧
    (∀ nm : List Char, nm ≠ [] → (∀ c ∈ nm, (c == '\n') = false) →
       cdMatch (String.mk (("attachment; filename=").data ++
           quoteChar :: (nm ++ quoteChar :: []))) = some (String.mk nm)) := by
  constructor
  · intro cd filenamePre d name h
    simp [chooseFilename, h]
  · intro nm hne hnl
    have hcap : capQuote (nm ++ quoteChar :: []) = some nm := capQuote_exact nm hne hnl
    have hfind : cdFind (("attachment; filename=").data ++
        quoteChar :: (nm ++ quoteChar :: [])) = some nm := by
      show cdFind ('a' :: 't' :: 't' :: 'a' :: 'c' :: 'h' :: 'm' :: 'e' :: 'n' :: 't' ::
          ';' :: ' ' :: (fnLit ++ (nm ++ quoteChar :: []))) = some nm
      rw [cdFind_step_ne 'a' _ rfl, cdFind_step_ne 't' _ rfl, cdFind_step_ne 't' _ rfl,
          cdFind_step_ne 'a' _ rfl, cdFind_step_ne 'c' _ rfl, cdFind_step_ne 'h' _ rfl,
          cdFind_step_ne 'm' _ rfl, cdFind_step_ne 'e' _ rfl, cdFind_step_ne 'n' _ rfl,
          cdFind_step_ne 't' _ rfl, cdFind_step_ne ';' _ rfl, cdFind_step_ne ' ' _ rfl]
      exact cdFind_found 'f'
        ('i' :: 'l' :: 'e' :: 'n' :: 'a' :: 'm' :: 'e' :: '=' :: quoteChar ::
          (nm ++ quoteChar :: [])) nm
        (litMatch_append_self fnLit (nm ++ quoteChar :: [])) hcap
    show (cdFind (("attachment; filename=").data ++
        quoteChar :: (nm ++ quoteChar :: []))).map String.mk = some (String.mk nm)
    rw [hfind]
    rfl

/-- Witness for C6: the header `attachment; filename="doc.md"` makes the
saved filename `doc.md`, not the generated timestamp name. -/
theorem c6_witness :
    chooseFilename (some ("attachment; filename=\"doc.md\"")) ("P")
      (JSDate.mk 2024 1 2 3 4 5 6) = "doc.md" :=
  c6_server_filename.1 ("attachment; filename=\"doc.md\"") ("P")
    (JSDate.mk 2024 1 2 3 4 5 6) ("doc.md") (by decide)
